import Mathlib

/-!
# Verification of the admin-dashboard business rules (`api/main.py`)

Shallow embedding of the business-rule layer of the repository: the record
store is a quadruple of lists (users, customers, partnership codes,
financial transactions), each HTTP handler becomes a Lean function from the
store (plus the request payload and the current time) to `Except ApiError`
of the updated store and response data.

Python `datetime` values are embedded as a structure of civil fields
(`PyDateTime`).  Python compares `datetime` values chronologically, which
for civil field tuples is the lexicographic order; we realise that order by
an injective monotone `key` into `Nat`.  `datetime.weekday()` (Monday = 0)
is computed from the proleptic Gregorian ordinal exactly as CPython does,
and `today_start - timedelta(days=weekday)` is embedded as walking the
civil calendar back one day at a time.
-/

/-- Embedding of a Python `datetime.datetime` by its civil fields. -/
structure PyDateTime where
  year : Nat
  month : Nat
  day : Nat
  hour : Nat
  minute : Nat
  second : Nat
  microsecond : Nat
deriving DecidableEq, Repr

/-- Leap-year test of the Gregorian calendar (as in CPython's
`calendar.isleap`). -/
def isLeap (y : Nat) : Bool :=
  y % 4 == 0 && (y % 100 != 0 || y % 400 == 0)

/-- Number of days in month `m` of year `y` (Gregorian). -/
def daysInMonth (y m : Nat) : Nat :=
  if m = 2 then (if isLeap y then 29 else 28)
  else if m = 4 ∨ m = 6 ∨ m = 9 ∨ m = 11 then 30
  else 31

/-- Days in any month are at most 31. -/
theorem daysInMonth_le_31 (y m : Nat) : daysInMonth y m ≤ 31 := by
  unfold daysInMonth
  split
  · split <;> omega
  · split <;> omega

/-- Days in any month are at least 28. -/
theorem daysInMonth_pos (y m : Nat) : 1 ≤ daysInMonth y m := by
  unfold daysInMonth
  split
  · split <;> omega
  · split <;> omega

/-- Days before January 1 of year `y` counted from the proleptic Gregorian
epoch, as in CPython's `datetime._days_before_year`. -/
def daysBeforeYear (y : Nat) : Nat :=
  365 * (y - 1) + ((y - 1) / 4 - (y - 1) / 100) + (y - 1) / 400

/-- Days in year `y` before the first day of month `m`
(CPython `datetime._days_before_month`). -/
def daysBeforeMonth (y m : Nat) : Nat :=
  (List.range (m - 1)).foldl (fun acc i => acc + daysInMonth y (i + 1)) 0

/-- Proleptic Gregorian ordinal of the date `(y, m, d)`:
`toOrdinal 1 1 1 = 1` (CPython `date.toordinal`). -/
def toOrdinal (y m d : Nat) : Nat :=
  daysBeforeYear y + daysBeforeMonth y m + d

/-- CPython `date.weekday()`: Monday is `0`.  The proleptic Gregorian date
0001-01-01 (ordinal 1) is a Monday. -/
def weekdayOfDate (y m d : Nat) : Nat :=
  (toOrdinal y m d + 6) % 7

/-- `datetime.weekday()` of a `PyDateTime`. -/
def PyDateTime.weekday (t : PyDateTime) : Nat :=
  weekdayOfDate t.year t.month t.day

/-- The civil date one day before `(y, m, d)` (the step function of
`timedelta(days=1)` subtraction). -/
def prevDay : Nat × Nat × Nat → Nat × Nat × Nat
  | (y, m, d) =>
    if 1 < d then (y, m, d - 1)
    else if 1 < m then (y, m - 1, daysInMonth y (m - 1))
    else (y - 1, 12, 31)

/-- Subtract `k` days from a civil date: `date - timedelta(days=k)`. -/
def subDays (p : Nat × Nat × Nat) : Nat → Nat × Nat × Nat
  | 0 => p
  | k + 1 => subDays (prevDay p) k

/-- Monotone injective key of a civil date (valid dates compare
chronologically iff their keys compare in `Nat`). -/
def dateKey (p : Nat × Nat × Nat) : Nat :=
  (p.1 * 13 + p.2.1) * 32 + p.2.2

/-- Monotone injective key of a `PyDateTime`; for valid datetimes
`a ≤ b` chronologically iff `a.key ≤ b.key`.  Python's `datetime`
comparison is embedded through this key. -/
def PyDateTime.key (t : PyDateTime) : Nat :=
  ((((dateKey (t.year, t.month, t.day) * 24 + t.hour) * 60 + t.minute) * 60
      + t.second) * 1000000) + t.microsecond

/-- Boolean chronological comparison `a <= b` on datetimes. -/
def PyDateTime.leb (a b : PyDateTime) : Bool :=
  decide (a.key ≤ b.key)

/-- A `PyDateTime` is valid when its fields are in the ranges CPython
enforces (`MINYEAR = 1`, `MAXYEAR = 9999`, real day-of-month, etc.). -/
def PyDateTime.valid (t : PyDateTime) : Prop :=
  1 ≤ t.year ∧ t.year ≤ 9999 ∧ 1 ≤ t.month ∧ t.month ≤ 12 ∧
  1 ≤ t.day ∧ t.day ≤ daysInMonth t.year t.month ∧
  t.hour ≤ 23 ∧ t.minute ≤ 59 ∧ t.second ≤ 59 ∧ t.microsecond ≤ 999999

instance (t : PyDateTime) : Decidable t.valid := by
  unfold PyDateTime.valid; infer_instance

/-- Stepping one day back never increases the date key beyond
`max 415 (dateKey p)`; `415 = dateKey (0, 12, 31)` bounds the year-zero
wrap-around of truncated `Nat` subtraction, which is unreachable from any
valid date. -/
theorem dateKey_prevDay_le (p : Nat × Nat × Nat)
    (hm : p.2.1 ≤ 12) (hd : p.2.2 ≤ 31) :
    dateKey (prevDay p) ≤ max 415 (dateKey p) := by
  obtain ⟨y, m, d⟩ := p
  simp only at hm hd
  rw [prevDay]
  split
  case isTrue h =>
    simp only [dateKey]; omega
  case isFalse h =>
    split
    case isTrue h2 =>
      have h31 := daysInMonth_le_31 y (m - 1)
      simp only [dateKey]; omega
    case isFalse h2 =>
      simp only [dateKey]; omega

/-- `prevDay` keeps the month-and-day field bounds. -/
theorem prevDay_bounds (p : Nat × Nat × Nat) (hm : p.2.1 ≤ 12) (hd : p.2.2 ≤ 31) :
    (prevDay p).2.1 ≤ 12 ∧ (prevDay p).2.2 ≤ 31 := by
  obtain ⟨y, m, d⟩ := p
  simp only at hm hd
  rw [prevDay]
  split
  case isTrue h => exact ⟨hm, by simp; omega⟩
  case isFalse h =>
    split
    case isTrue h2 =>
      exact ⟨by simp; omega, by simpa using daysInMonth_le_31 y (m - 1)⟩
    case isFalse h2 => simp

/-- Walking the calendar back any number of days never increases the date
key beyond `max 415 (dateKey p)`. -/
theorem dateKey_subDays_le (k : Nat) (p : Nat × Nat × Nat)
    (hm : p.2.1 ≤ 12) (hd : p.2.2 ≤ 31) :
    dateKey (subDays p k) ≤ max 415 (dateKey p) := by
  induction k generalizing p with
  | zero => simp [subDays]
  | succ n ih =>
    have hb := prevDay_bounds p hm hd
    have h1 := dateKey_prevDay_le p hm hd
    have h2 := ih (prevDay p) hb.1 hb.2
    simp only [subDays]
    omega

/-!
## Record store

The four record types of §3 of the spec.  The schema module
(`api/database.py`) is not part of the sources; its column defaults are
modelled from the spec: `is_deleted` defaults to false, `created_at` and a
transaction's `transaction_date` default to the creation time
("transaction timestamp (defaults to creation time), soft-delete flag").
The `camps`/`prices` text columns hold JSON-serialised lists; since
`json.dumps`/`json.loads` round-trip them, they are embedded directly as
lists.
-/

/-- A `User` row.  Identity plus five independent permission flags. -/
structure UserRec where
  id : Nat
  email : String
  hashed_password : String
  is_active : Bool
  can_manage_customers : Bool
  can_view_financials : Bool
  can_manage_partnership_codes : Bool
  can_view_partnership_stats : Bool
  can_manage_access : Bool
deriving DecidableEq, Repr

/-- A `Customer` row (one enrollment). -/
structure CustomerRec where
  id : Nat
  full_name : String
  phone : String
  email : String
  class_level : String
  camps : List String
  prices : List Int
  partnership_code : Option String
  previous_yks_rank : Option Nat
  city : String
  is_paid : Bool
  is_deleted : Bool
  deleted_at : Option PyDateTime
  created_at : PyDateTime
deriving DecidableEq, Repr

/-- A `PartnershipCode` row. -/
structure PartnershipCodeRec where
  id : Nat
  code : String
  is_active : Bool
  created_at : PyDateTime
deriving DecidableEq, Repr

/-- A `FinancialTransaction` row.  (The surrogate primary key is omitted:
no business rule reads it.) -/
structure TransactionRec where
  customer_id : Nat
  amount : Int
  transaction_date : PyDateTime
  is_deleted : Bool
deriving DecidableEq, Repr

/-- The record store: the four tables, each as an insertion-ordered list. -/
structure DB where
  users : List UserRec
  customers : List CustomerRec
  codes : List PartnershipCodeRec
  transactions : List TransactionRec
deriving DecidableEq, Repr

/-- Domain errors (§7 taxonomy).  `invalidReference` is the HTTP 400 raised
for a bad partnership code at enrollment time. -/
inductive ApiError where
  | unauthenticated
  | forbidden
  | notFound
  | invalidReference
  | conflict
deriving DecidableEq, Repr

/-- Apply `f` to the first element satisfying `p`, leaving the rest alone:
the effect of mutating the row returned by a `query(...).first()`. -/
def updateFirst (p : α → Bool) (f : α → α) : List α → List α
  | [] => []
  | x :: xs => if p x then f x :: xs else x :: updateFirst p f xs

/-!
## Enrollment creation (`create_customer`, `api/main.py` 119-171)
-/

/-- The partnership-code validation of `create_customer`
(`api/main.py` 125-135): `if customer.partnership_code:` is Python
truthiness, so `None` and the empty string both skip the check; otherwise
a `PartnershipCode` row with that exact code string and `is_active` true
must exist.  Returns `true` when the request must be rejected. -/
def partnershipInvalid (db : DB) : Option String → Bool
  | none => false
  | some s =>
    if s = "" then false
    else (db.codes.find? (fun code => code.code == s && code.is_active)).isNone

/-- The request payload of `POST /api/customers` (`CustomerCreate`;
`api/models.py` is not in the sources, fields modelled from the spec
§4.2). -/
structure CustomerCreate where
  full_name : String
  phone : String
  email : String
  class_level : String
  camps : List String
  prices : List Int
  partnership_code : Option String
  previous_yks_rank : Option Nat
  city : String
deriving DecidableEq, Repr

/-- The `Customer` row built by `create_customer` (`api/main.py` 140-151):
`is_paid = True if total_price > 0 else False`, soft-delete fields at their
defaults, `created_at = now`. -/
def newCustomer (c : CustomerCreate) (cid : Nat) (now : PyDateTime) :
    CustomerRec :=
  { id := cid
    full_name := c.full_name
    phone := c.phone
    email := c.email
    class_level := c.class_level
    camps := c.camps
    prices := c.prices
    partnership_code := c.partnership_code
    previous_yks_rank := c.previous_yks_rank
    city := c.city
    is_paid := decide (0 < c.prices.sum)
    is_deleted := false
    deleted_at := none
    created_at := now }

/-- The `FinancialTransaction` row built by `create_customer`
(`api/main.py` 158-163): `amount = total_price`, date defaulting to the
creation time. -/
def newTransaction (c : CustomerCreate) (cid : Nat) (now : PyDateTime) :
    TransactionRec :=
  { customer_id := cid
    amount := c.prices.sum
    transaction_date := now
    is_deleted := false }

/-- `create_customer` (`api/main.py` 119-171).  `cid` is the id the store
assigns to the new row and `now` the current time.  Validates the
partnership code, computes `total_price = sum(prices)`, persists the
Customer with `is_paid = total > 0`, and when `total > 0` also persists one
`FinancialTransaction(customer_id=cid, amount=total)` whose date defaults
to `now`. -/
def create_customer (db : DB) (c : CustomerCreate) (cid : Nat)
    (now : PyDateTime) : Except ApiError (DB × CustomerRec) :=
  if partnershipInvalid db c.partnership_code then .error .invalidReference
  else
    let cust := newCustomer c cid now
    let db1 := { db with customers := db.customers ++ [cust] }
    let db2 :=
      if 0 < c.prices.sum then
        { db1 with transactions := db1.transactions ++ [newTransaction c cid now] }
      else db1
    .ok (db2, cust)

/-!
## Customer soft-deletion (`delete_customer`, `api/main.py` 196-223)
-/

/-- The transaction cascade of `delete_customer` (`api/main.py` 212-219):
set the deleted flag on every non-deleted transaction referencing the
customer id, leaving every other transaction as it is. -/
def cascadeTransactions (customer_id : Nat) (ts : List TransactionRec) :
    List TransactionRec :=
  ts.map (fun t =>
    if t.customer_id == customer_id && !t.is_deleted then
      { t with is_deleted := true }
    else t)

/-- `delete_customer` (`api/main.py` 196-223).  Looks the Customer up by id
(with no `is_deleted` filter), 404s when absent; otherwise sets its deleted
flag and deletion timestamp and sets the deleted flag on every non-deleted
transaction referencing that customer id. -/
def delete_customer (db : DB) (customer_id : Nat) (now : PyDateTime) :
    Except ApiError DB :=
  match db.customers.find? (fun c => c.id == customer_id) with
  | none => .error .notFound
  | some _ =>
    .ok { db with
      customers := (updateFirst (fun c => c.id == customer_id)
        (fun c => { c with is_deleted := true, deleted_at := some now })
        db.customers)
      transactions := cascadeTransactions customer_id db.transactions }

/-!
## Financial aggregation (`get_financials`, `api/main.py` 227-271)
-/

/-- One entry of the financial detail list. -/
structure FinancialDetail where
  customer_id : Nat
  customer_name : String
  amount : Int
  transaction_date : PyDateTime
deriving DecidableEq, Repr

/-- The four window sums of `get_financials`. -/
structure FinancialPeriod where
  daily : Int
  weekly : Int
  monthly : Int
  yearly : Int
deriving DecidableEq, Repr

/-- The `GET /api/financials` response. -/
structure FinancialResponse where
  period : FinancialPeriod
  details : List FinancialDetail
  total : Int
deriving DecidableEq, Repr

/-- `now.replace(hour=0, minute=0, second=0, microsecond=0)`. -/
def todayStart (now : PyDateTime) : PyDateTime :=
  { now with hour := 0, minute := 0, second := 0, microsecond := 0 }

/-- `today_start - timedelta(days=now.weekday())`: midnight of the most
recent Monday. -/
def weekStart (now : PyDateTime) : PyDateTime :=
  let p := subDays (now.year, now.month, now.day) now.weekday
  { year := p.1
    month := p.2.1
    day := p.2.2
    hour := 0
    minute := 0
    second := 0
    microsecond := 0 }

/-- `now.replace(day=1, hour=0, minute=0, second=0, microsecond=0)`. -/
def monthStart (now : PyDateTime) : PyDateTime :=
  { now with day := 1, hour := 0, minute := 0, second := 0, microsecond := 0 }

/-- `now.replace(month=1, day=1, hour=0, ...)`: midnight of January 1. -/
def yearStart (now : PyDateTime) : PyDateTime :=
  { now with
    month := 1
    day := 1
    hour := 0
    minute := 0
    second := 0
    microsecond := 0 }

/-- The non-deleted transactions (`query(FinancialTransaction).filter(
is_deleted == False)`). -/
def liveTransactions (db : DB) : List TransactionRec :=
  db.transactions.filter (fun t => !t.is_deleted)

/-- `sum(t.amount for t in ts if t.transaction_date >= start)`. -/
def windowSum (ts : List TransactionRec) (start : PyDateTime) : Int :=
  ((ts.filter (fun t => start.leb t.transaction_date)).map
    (fun t => t.amount)).sum

/-- The detail-list loop of `get_financials` (`api/main.py` 251-260): for
each transaction, look its Customer up by id; emit an entry when the
Customer exists and is not soft-deleted. -/
def detailsOf (db : DB) : List TransactionRec → List FinancialDetail
  | [] => []
  | t :: ts =>
    match db.customers.find? (fun c => c.id == t.customer_id) with
    | some c =>
      if c.is_deleted then detailsOf db ts
      else { customer_id := c.id
             customer_name := c.full_name
             amount := t.amount
             transaction_date := t.transaction_date }
        :: detailsOf db ts
    | none => detailsOf db ts

/-- `get_financials` (`api/main.py` 227-271). -/
def get_financials (db : DB) (now : PyDateTime) : FinancialResponse :=
  let live := liveTransactions db
  { period :=
      { daily := windowSum live (todayStart now)
        weekly := windowSum live (weekStart now)
        monthly := windowSum live (monthStart now)
        yearly := windowSum live (yearStart now) }
    details := detailsOf db live
    total := (live.map (fun t => t.amount)).sum }

/-!
## Partnership statistics (`get_partnership_stats`, `api/main.py` 325-350)
-/

/-- One `GET /api/partnership-stats` entry. -/
structure PartnershipStats where
  code : String
  customer_count : Nat
  total_amount : Int
deriving DecidableEq, Repr

/-- Descending order on stats entries: `a` may come before `b`.  The
comparator of `sorted(stats, key=lambda x: x.total_amount, reverse=True)`. -/
def statGe (a b : PartnershipStats) : Prop :=
  b.total_amount ≤ a.total_amount

instance : DecidableRel statGe :=
  fun _ _ => inferInstanceAs (Decidable (_ ≤ _))

instance : IsTotal PartnershipStats statGe :=
  ⟨fun a b => le_total b.total_amount a.total_amount⟩

instance : IsTrans PartnershipStats statGe :=
  ⟨fun _ _ _ h1 h2 => le_trans h2 h1⟩

/-- The per-code body of the stats loop (`api/main.py` 333-348): the
non-deleted Customers whose `partnership_code` equals the code's string,
counted, and their decoded price lists summed. -/
def statFor (db : DB) (code : PartnershipCodeRec) : PartnershipStats :=
  let customers := db.customers.filter (fun c =>
    c.partnership_code == some code.code && !c.is_deleted)
  { code := code.code
    customer_count := customers.length
    total_amount := (customers.map (fun c => c.prices.sum)).sum }

/-- `get_partnership_stats` (`api/main.py` 325-350).  Python's `sorted` is
a stable sort; with the non-strict descending comparator `statGe`,
`List.insertionSort` is stable in the same sense and so computes the same
list. -/
def get_partnership_stats (db : DB) : List PartnershipStats :=
  List.insertionSort statGe (db.codes.map (statFor db))

/-!
## User management (`update_user` / `delete_user`, `api/main.py` 393-462)
-/

/-- The two hardcoded protected addresses (`api/main.py` 401, 443). -/
def protectedEmails : List String :=
  ["gokhan@kampus.com", "emre@kampus.com"]

/-- The `PUT /api/users/{id}` payload (`UserUpdate`; `api/models.py` is not
in the sources, the tri-state optional fields are modelled from the spec
§4.8: "each of the five permission flags and the active flag is updated
only if explicitly provided"). -/
structure UserUpdate where
  can_manage_customers : Option Bool
  can_view_financials : Option Bool
  can_manage_partnership_codes : Option Bool
  can_view_partnership_stats : Option Bool
  can_manage_access : Option Bool
  is_active : Option Bool
deriving DecidableEq, Repr

/-- The field-update block of `update_user` (`api/main.py` 416-428): each
`if user_data.x is not None: user.x = user_data.x` in source order. -/
def applyUserUpdate (u : UserRec) (d : UserUpdate) : UserRec :=
  let u := match d.can_manage_customers with
    | some v => { u with can_manage_customers := v } | none => u
  let u := match d.can_view_financials with
    | some v => { u with can_view_financials := v } | none => u
  let u := match d.can_manage_partnership_codes with
    | some v => { u with can_manage_partnership_codes := v } | none => u
  let u := match d.can_view_partnership_stats with
    | some v => { u with can_view_partnership_stats := v } | none => u
  let u := match d.can_manage_access with
    | some v => { u with can_manage_access := v } | none => u
  let u := match d.is_active with
    | some v => { u with is_active := v } | none => u
  u

/-- `update_user` (`api/main.py` 393-433): 404 when the id is absent, 403
when the target's email is protected, otherwise the partial update. -/
def update_user (db : DB) (user_id : Nat) (d : UserUpdate) :
    Except ApiError (DB × UserRec) :=
  match db.users.find? (fun u => u.id == user_id) with
  | none => .error .notFound
  | some u =>
    if u.email ∈ protectedEmails then .error .forbidden
    else
      .ok ({ db with users := (updateFirst (fun x => x.id == user_id)
               (fun x => applyUserUpdate x d) db.users) },
           applyUserUpdate u d)

/-- `delete_user` (`api/main.py` 436-462): 404 when the id is absent, 403
when the target's email is protected, otherwise deactivates
(`is_active = False`, never a hard delete). -/
def delete_user (db : DB) (user_id : Nat) : Except ApiError DB :=
  match db.users.find? (fun u => u.id == user_id) with
  | none => .error .notFound
  | some u =>
    if u.email ∈ protectedEmails then .error .forbidden
    else
      .ok { db with users := (updateFirst (fun x => x.id == user_id)
              (fun x => { x with is_active := false }) db.users) }

/-!
## Concrete fixtures used by witnesses
-/

/-- An empty record store. -/
def emptyDB : DB := ⟨[], [], [], []⟩

/-- A concrete request time (2024-05-15 is a Wednesday). -/
def sampleNow : PyDateTime := ⟨2024, 5, 15, 10, 30, 0, 0⟩

/-- A paid enrollment request without a partnership code. -/
def samplePaidCreate : CustomerCreate :=
  { full_name := "Ada"
    phone := "555"
    email := "ada@example.com"
    class_level := "12"
    camps := ["Math", "Sci"]
    prices := [50, 70]
    partnership_code := none
    previous_yks_rank := none
    city := "Izmir" }

/-- An enrollment request naming a partnership code that no store holds. -/
def sampleCodedCreate : CustomerCreate :=
  { samplePaidCreate with partnership_code := some "PARTNER10" }

/-- An enrollment request whose partnership-code field is the empty
string. -/
def sampleEmptyCodeCreate : CustomerCreate :=
  { samplePaidCreate with partnership_code := some "" }

/-!
## C1 - enrollment creation: paid flag and financial transaction
-/

/-- C1: for every enrollment creation request that passes partnership-code
validation, the persisted Customer has `is_paid = (sum of submitted prices
> 0)`; when the sum is strictly positive exactly one FinancialTransaction
with that amount is appended alongside the Customer, and when the sum is 0
the transaction table is unchanged. -/
theorem c1_create_customer_payment (db : DB) (c : CustomerCreate)
    (cid : Nat) (now : PyDateTime)
    (h : partnershipInvalid db c.partnership_code = false) :
    ∃ db' cust, create_customer db c cid now = .ok (db', cust) ∧
      db'.customers = db.customers ++ [cust] ∧
      cust.is_paid = decide (0 < c.prices.sum) ∧
      (0 < c.prices.sum →
        db'.transactions = db.transactions ++
          [{ customer_id := cid
             amount := c.prices.sum
             transaction_date := now
             is_deleted := false }]) ∧
      (c.prices.sum = 0 → db'.transactions = db.transactions) := by
  by_cases h2 : 0 < c.prices.sum
  · refine ⟨{ db with
                customers := db.customers ++ [newCustomer c cid now]
                transactions := db.transactions ++ [newTransaction c cid now] },
            newCustomer c cid now, ?_, rfl, rfl, fun _ => rfl, ?_⟩
    · unfold create_customer
      rw [h]
      simp [h2]
    · intro h0; omega
  · refine ⟨{ db with customers := db.customers ++ [newCustomer c cid now] },
            newCustomer c cid now, ?_, rfl, rfl, ?_, fun _ => rfl⟩
    · unfold create_customer
      rw [h]
      simp [h2]
    · intro hc; exact absurd hc h2

/-- Witness for C1 at a concrete paid enrollment. -/
theorem c1_create_customer_payment_witness :
    partnershipInvalid emptyDB samplePaidCreate.partnership_code = false ∧
    (∃ db' cust,
      create_customer emptyDB samplePaidCreate 1 sampleNow = .ok (db', cust) ∧
      db'.customers = emptyDB.customers ++ [cust] ∧
      cust.is_paid = decide (0 < samplePaidCreate.prices.sum) ∧
      (0 < samplePaidCreate.prices.sum →
        db'.transactions = emptyDB.transactions ++
          [{ customer_id := 1
             amount := samplePaidCreate.prices.sum
             transaction_date := sampleNow
             is_deleted := false }]) ∧
      (samplePaidCreate.prices.sum = 0 →
        db'.transactions = emptyDB.transactions)) :=
  ⟨rfl, c1_create_customer_payment emptyDB samplePaidCreate 1 sampleNow rfl⟩

/-!
## C7 - enrollment creation: invalid partnership code is rejected
-/

/-- C7: when the request supplies a non-empty partnership code and no
active PartnershipCode row carries that exact string, `create_customer`
fails with `invalidReference` (so no Customer or FinancialTransaction is
persisted: the rejection happens before any write). -/
theorem c7_create_customer_invalid_code (db : DB) (c : CustomerCreate)
    (cid : Nat) (now : PyDateTime) (s : String)
    (hpc : c.partnership_code = some s) (hne : s ≠ "")
    (hnone : ∀ code ∈ db.codes, ¬(code.code = s ∧ code.is_active = true)) :
    create_customer db c cid now = .error .invalidReference := by
  have hbad : partnershipInvalid db c.partnership_code = true := by
    rw [hpc]
    simp only [partnershipInvalid]
    rw [if_neg hne]
    rw [Option.isNone_iff_eq_none, List.find?_eq_none]
    intro code hmem
    have h := hnone code hmem
    simp only [Bool.and_eq_true, beq_iff_eq]
    intro hcontra
    exact h ⟨hcontra.1, hcontra.2⟩
  unfold create_customer
  rw [hbad]
  simp

/-- Witness for C7: an unknown code "PARTNER10" against the empty store. -/
theorem c7_create_customer_invalid_code_witness :
    sampleCodedCreate.partnership_code = some "PARTNER10" ∧
    "PARTNER10" ≠ "" ∧
    (∀ code ∈ emptyDB.codes, ¬(code.code = "PARTNER10" ∧ code.is_active = true)) ∧
    create_customer emptyDB sampleCodedCreate 1 sampleNow =
      .error .invalidReference :=
  ⟨rfl, by decide, by simp [emptyDB],
   c7_create_customer_invalid_code emptyDB sampleCodedCreate 1 sampleNow
     "PARTNER10" rfl (by decide) (by simp [emptyDB])⟩

/-!
## C9 - enrollment creation: the empty-string code bypasses validation
-/

/-- C9: a request whose partnership-code field is the empty string skips
the existence/active validation entirely (Python truthiness of `""` is
false), so even in a store holding no PartnershipCode with an empty code
string the request succeeds and the Customer is persisted carrying the
empty-string code. -/
theorem c9_create_customer_empty_code (db : DB) (c : CustomerCreate)
    (cid : Nat) (now : PyDateTime)
    (hpc : c.partnership_code = some "")
    (_hnocode : ∀ code ∈ db.codes, code.code ≠ "") :
    ∃ db' cust, create_customer db c cid now = .ok (db', cust) ∧
      cust.partnership_code = some "" ∧
      db'.customers = db.customers ++ [cust] := by
  have hok : partnershipInvalid db c.partnership_code = false := by
    rw [hpc]; rfl
  have hcode : (newCustomer c cid now).partnership_code = some "" := by
    rw [← hpc]; rfl
  by_cases h2 : 0 < c.prices.sum
  · refine ⟨{ db with
                customers := db.customers ++ [newCustomer c cid now]
                transactions := db.transactions ++ [newTransaction c cid now] },
            newCustomer c cid now, ?_, hcode, rfl⟩
    unfold create_customer
    rw [hok]
    simp [h2]
  · refine ⟨{ db with customers := db.customers ++ [newCustomer c cid now] },
            newCustomer c cid now, ?_, hcode, rfl⟩
    unfold create_customer
    rw [hok]
    simp [h2]

/-- Witness for C9: the empty-string code against the empty store. -/
theorem c9_create_customer_empty_code_witness :
    sampleEmptyCodeCreate.partnership_code = some "" ∧
    (∀ code ∈ emptyDB.codes, code.code ≠ "") ∧
    (∃ db' cust,
      create_customer emptyDB sampleEmptyCodeCreate 1 sampleNow =
        .ok (db', cust) ∧
      cust.partnership_code = some "" ∧
      db'.customers = emptyDB.customers ++ [cust]) :=
  ⟨rfl, by simp [emptyDB],
   c9_create_customer_empty_code emptyDB sampleEmptyCodeCreate 1 sampleNow
     rfl (by simp [emptyDB])⟩

/-!
## C3 / C10 - customer soft-deletion
-/

/-- `find?` over a list whose first match is `c`. -/
theorem find?_first_match (p : α → Bool) (l1 l2 : List α) (c : α)
    (h1 : ∀ x ∈ l1, p x = false) (hc : p c = true) :
    (l1 ++ c :: l2).find? p = some c := by
  induction l1 with
  | nil => simp [List.find?_cons, hc]
  | cons a l ih =>
    have ha := h1 a (by simp)
    simp only [List.cons_append, List.find?_cons, ha]
    exact ih (fun x hx => h1 x (by simp [hx]))

/-- `updateFirst` over a list whose first match is `c` rewrites exactly
that element. -/
theorem updateFirst_first_match (p : α → Bool) (f : α → α)
    (l1 l2 : List α) (c : α)
    (h1 : ∀ x ∈ l1, p x = false) (hc : p c = true) :
    updateFirst p f (l1 ++ c :: l2) = l1 ++ f c :: l2 := by
  induction l1 with
  | nil => simp [updateFirst, hc]
  | cons a l ih =>
    have ha := h1 a (by simp)
    simp only [List.cons_append, updateFirst, ha, Bool.false_eq_true,
      if_false, List.cons.injEq, true_and]
    exact ih (fun x hx => h1 x (by simp [hx]))

/-- Element-wise description of the cascade: the transaction at each
position is flagged deleted exactly when it references the customer and
was not yet deleted, and is untouched otherwise. -/
theorem cascadeTransactions_get (customer_id : Nat)
    (ts : List TransactionRec) (i : Nat) (hi : i < ts.length)
    (hi' : i < (cascadeTransactions customer_id ts).length) :
    (cascadeTransactions customer_id ts).get ⟨i, hi'⟩ =
      (if (ts.get ⟨i, hi⟩).customer_id = customer_id ∧
          (ts.get ⟨i, hi⟩).is_deleted = false
       then { ts.get ⟨i, hi⟩ with is_deleted := true }
       else ts.get ⟨i, hi⟩) := by
  simp only [cascadeTransactions, List.get_eq_getElem, List.getElem_map]
  by_cases hid : ts[i].customer_id = customer_id
  · cases h3 : ts[i].is_deleted
    · simp [hid, h3]
    · simp [hid, h3]
  · simp [hid]

/-- If every transaction of the customer is already deleted, the cascade
is the identity. -/
theorem cascadeTransactions_id (customer_id : Nat)
    (ts : List TransactionRec)
    (htrans : ∀ t ∈ ts, t.customer_id = customer_id → t.is_deleted = true) :
    cascadeTransactions customer_id ts = ts := by
  unfold cascadeTransactions
  have h : ∀ t ∈ ts, (fun t : TransactionRec =>
      if t.customer_id == customer_id && !t.is_deleted then
        { t with is_deleted := true }
      else t) t = id t := by
    intro t ht
    by_cases hid : t.customer_id = customer_id
    · simp [htrans t ht hid]
    · simp [hid]
  rw [List.map_congr_left h, List.map_id]

/-- C3: soft-deleting by an id that matches no Customer fails with
`notFound`; by a matching id it sets the deleted flag and deletion
timestamp on that Customer, sets the deleted flag on every non-deleted
transaction referencing that customer id, and leaves every other record
(other customers, users, codes, and every other transaction) unchanged. -/
theorem c3_delete_customer_cascade (db : DB) (customer_id : Nat)
    (now : PyDateTime) :
    ((∀ c ∈ db.customers, c.id ≠ customer_id) →
      delete_customer db customer_id now = .error .notFound) ∧
    (∀ l1 c l2, db.customers = l1 ++ c :: l2 →
      (∀ x ∈ l1, x.id ≠ customer_id) → c.id = customer_id →
      ∃ db', delete_customer db customer_id now = .ok db' ∧
        db'.customers =
          l1 ++ { c with is_deleted := true, deleted_at := some now } :: l2 ∧
        db'.users = db.users ∧ db'.codes = db.codes ∧
        db'.transactions.length = db.transactions.length ∧
        (∀ (i : Nat) (hi : i < db.transactions.length)
            (hi' : i < db'.transactions.length),
          db'.transactions.get ⟨i, hi'⟩ =
            (if (db.transactions.get ⟨i, hi⟩).customer_id = customer_id ∧
                (db.transactions.get ⟨i, hi⟩).is_deleted = false
             then { db.transactions.get ⟨i, hi⟩ with is_deleted := true }
             else db.transactions.get ⟨i, hi⟩))) := by
  constructor
  · intro hnone
    have hfind : db.customers.find? (fun c => c.id == customer_id) = none := by
      rw [List.find?_eq_none]
      intro c hmem
      simpa using hnone c hmem
    unfold delete_customer
    rw [hfind]
  · intro l1 c l2 hsplit hfirst hc
    have hfind : db.customers.find? (fun x => x.id == customer_id) = some c := by
      rw [hsplit]
      exact find?_first_match (fun x => x.id == customer_id) l1 l2 c
        (fun x hx => by simpa using hfirst x hx) (by simpa using hc)
    refine ⟨{ db with
                customers := (updateFirst (fun x => x.id == customer_id)
                  (fun x => { x with is_deleted := true, deleted_at := some now })
                  db.customers)
                transactions := cascadeTransactions customer_id db.transactions },
            ?_, ?_, rfl, rfl, ?_, ?_⟩
    · unfold delete_customer
      rw [hfind]
    · show updateFirst _ _ db.customers = _
      rw [hsplit]
      exact updateFirst_first_match (fun x => x.id == customer_id) _ l1 l2 c
        (fun x hx => by simpa using hfirst x hx) (by simpa using hc)
    · simp [cascadeTransactions]
    · intro i hi hi'
      exact cascadeTransactions_get customer_id db.transactions i hi hi'

/-- A store with one live customer (id 1), one already-deleted customer
(id 2), and one transaction for each. -/
def sampleDB : DB :=
  { users := []
    customers :=
      [{ id := 1
         full_name := "Ada"
         phone := "555"
         email := "ada@example.com"
         class_level := "12"
         camps := ["Math"]
         prices := [120]
         partnership_code := none
         previous_yks_rank := none
         city := "Izmir"
         is_paid := true
         is_deleted := false
         deleted_at := none
         created_at := ⟨2024, 5, 1, 9, 0, 0, 0⟩ },
       { id := 2
         full_name := "Banu"
         phone := "556"
         email := "banu@example.com"
         class_level := "11"
         camps := ["Sci"]
         prices := [80]
         partnership_code := none
         previous_yks_rank := none
         city := "Ankara"
         is_paid := true
         is_deleted := true
         deleted_at := some ⟨2024, 5, 2, 9, 0, 0, 0⟩
         created_at := ⟨2024, 5, 1, 9, 5, 0, 0⟩ }]
    codes := []
    transactions :=
      [{ customer_id := 1
         amount := 120
         transaction_date := ⟨2024, 5, 1, 9, 0, 0, 0⟩
         is_deleted := false },
       { customer_id := 2
         amount := 80
         transaction_date := ⟨2024, 5, 1, 9, 5, 0, 0⟩
         is_deleted := true }] }

/-- Witness for C3: id 7 matches nothing in `sampleDB` (notFound branch),
and deleting id 1 succeeds preserving the transaction count. -/
theorem c3_delete_customer_cascade_witness :
    delete_customer sampleDB 7 sampleNow = .error .notFound ∧
    (∃ db', delete_customer sampleDB 1 sampleNow = .ok db' ∧
      db'.transactions.length = sampleDB.transactions.length) := by
  constructor
  · exact (c3_delete_customer_cascade sampleDB 7 sampleNow).1 (by decide)
  · obtain ⟨db', hok, _, _, _, hlen, _⟩ :=
      (c3_delete_customer_cascade sampleDB 1 sampleNow).2
        [] (sampleDB.customers.get ⟨0, by decide⟩)
        (sampleDB.customers.drop 1) (by decide) (by simp) (by decide)
    exact ⟨db', hok, hlen⟩

/-- C10: soft-deleting an already-soft-deleted Customer does not fail: it
succeeds, overwrites the deletion timestamp with the new time (the flag
stays set), and — as the cascade only targets non-deleted transactions, of
which the customer has none left — changes no FinancialTransaction. -/
theorem c10_delete_customer_idempotent (db : DB) (customer_id : Nat)
    (now : PyDateTime) (l1 : List CustomerRec) (c : CustomerRec)
    (l2 : List CustomerRec)
    (hsplit : db.customers = l1 ++ c :: l2)
    (hfirst : ∀ x ∈ l1, x.id ≠ customer_id) (hc : c.id = customer_id)
    (_hdel : c.is_deleted = true)
    (htrans : ∀ t ∈ db.transactions,
      t.customer_id = customer_id → t.is_deleted = true) :
    ∃ db', delete_customer db customer_id now = .ok db' ∧
      db'.customers =
        l1 ++ { c with is_deleted := true, deleted_at := some now } :: l2 ∧
      db'.transactions = db.transactions := by
  have hfind : db.customers.find? (fun x => x.id == customer_id) = some c := by
    rw [hsplit]
    exact find?_first_match (fun x => x.id == customer_id) l1 l2 c
      (fun x hx => by simpa using hfirst x hx) (by simpa using hc)
  refine ⟨{ db with
              customers := (updateFirst (fun x => x.id == customer_id)
                (fun x => { x with is_deleted := true, deleted_at := some now })
                db.customers)
              transactions := cascadeTransactions customer_id db.transactions },
          ?_, ?_, ?_⟩
  · unfold delete_customer
    rw [hfind]
  · show updateFirst _ _ db.customers = _
    rw [hsplit]
    exact updateFirst_first_match (fun x => x.id == customer_id) _ l1 l2 c
      (fun x hx => by simpa using hfirst x hx) (by simpa using hc)
  · exact cascadeTransactions_id customer_id db.transactions htrans

/-- Witness for C10: re-deleting the already-deleted customer id 2 of
`sampleDB`. -/
theorem c10_delete_customer_idempotent_witness :
    ∃ db', delete_customer sampleDB 2 sampleNow = .ok db' ∧
      db'.customers =
        [sampleDB.customers.get ⟨0, by decide⟩] ++
          { sampleDB.customers.get ⟨1, by decide⟩ with
              is_deleted := true
              deleted_at := some sampleNow } ::
          [] ∧
      db'.transactions = sampleDB.transactions :=
  c10_delete_customer_idempotent sampleDB 2 sampleNow
    [sampleDB.customers.get ⟨0, by decide⟩]
    (sampleDB.customers.get ⟨1, by decide⟩) []
    (by decide) (by decide) (by decide) (by decide) (by decide)

/-!
## C5 / C6 - user management
-/

/-- C5: when the user found for the target id carries one of the two
protected email addresses, the update endpoint fails with `forbidden` for
every payload — whatever fields it supplies — and the deactivate (delete)
endpoint fails with `forbidden` as well; both reject before touching the
store, so the target record is unchanged. -/
theorem c5_protected_users_locked (db : DB) (user_id : Nat) (u : UserRec)
    (hfind : db.users.find? (fun x => x.id == user_id) = some u)
    (hprot : u.email ∈ protectedEmails) :
    (∀ d : UserUpdate, update_user db user_id d = .error .forbidden) ∧
    delete_user db user_id = .error .forbidden := by
  constructor
  · intro d
    unfold update_user
    rw [hfind]
    simp [hprot]
  · unfold delete_user
    rw [hfind]
    simp [hprot]

/-- A store holding the protected user `gokhan@kampus.com` (id 1) and a
regular user (id 2). -/
def userDB : DB :=
  { users :=
      [{ id := 1
         email := "gokhan@kampus.com"
         hashed_password := "h1"
         is_active := true
         can_manage_customers := true
         can_view_financials := true
         can_manage_partnership_codes := true
         can_view_partnership_stats := true
         can_manage_access := true },
       { id := 2
         email := "mete@example.com"
         hashed_password := "h2"
         is_active := true
         can_manage_customers := true
         can_view_financials := false
         can_manage_partnership_codes := false
         can_view_partnership_stats := true
         can_manage_access := false }]
    customers := []
    codes := []
    transactions := [] }

/-- A payload switching two flags off, one on, and leaving the rest
unset. -/
def sampleUpdate : UserUpdate :=
  { can_manage_customers := some false
    can_view_financials := none
    can_manage_partnership_codes := some true
    can_view_partnership_stats := none
    can_manage_access := some false
    is_active := none }

/-- Witness for C5 at the protected user of `userDB`. -/
theorem c5_protected_users_locked_witness :
    userDB.users.find? (fun x => x.id == 1) =
      some (userDB.users.get ⟨0, by decide⟩) ∧
    (userDB.users.get ⟨0, by decide⟩).email ∈ protectedEmails ∧
    update_user userDB 1 sampleUpdate = .error .forbidden ∧
    delete_user userDB 1 = .error .forbidden := by
  refine ⟨by decide, by decide, ?_, ?_⟩
  · exact (c5_protected_users_locked userDB 1
      (userDB.users.get ⟨0, by decide⟩) (by decide) (by decide)).1 sampleUpdate
  · exact (c5_protected_users_locked userDB 1
      (userDB.users.get ⟨0, by decide⟩) (by decide) (by decide)).2

/-- Field-wise description of the partial-update block: each flag becomes
the supplied value when one is provided (`Option.getD`), every omitted
flag keeps its prior value, and identity and secret are untouched. -/
theorem applyUserUpdate_spec (u : UserRec) (d : UserUpdate) :
    (applyUserUpdate u d).id = u.id ∧
    (applyUserUpdate u d).email = u.email ∧
    (applyUserUpdate u d).hashed_password = u.hashed_password ∧
    (applyUserUpdate u d).can_manage_customers =
      d.can_manage_customers.getD u.can_manage_customers ∧
    (applyUserUpdate u d).can_view_financials =
      d.can_view_financials.getD u.can_view_financials ∧
    (applyUserUpdate u d).can_manage_partnership_codes =
      d.can_manage_partnership_codes.getD u.can_manage_partnership_codes ∧
    (applyUserUpdate u d).can_view_partnership_stats =
      d.can_view_partnership_stats.getD u.can_view_partnership_stats ∧
    (applyUserUpdate u d).can_manage_access =
      d.can_manage_access.getD u.can_manage_access ∧
    (applyUserUpdate u d).is_active = d.is_active.getD u.is_active := by
  obtain ⟨f1, f2, f3, f4, f5, f6⟩ := d
  cases f1 <;> cases f2 <;> cases f3 <;> cases f4 <;> cases f5 <;> cases f6 <;>
    simp [applyUserUpdate]

/-- C6: updating a non-protected existing user succeeds; on the returned
(persisted) record each of the five permission flags and the active flag
equals the supplied value exactly when one is provided — including an
explicit `false` — and keeps its prior value when omitted, while email and
hashed secret are unchanged. -/
theorem c6_partial_user_update (db : DB) (user_id : Nat) (d : UserUpdate)
    (u : UserRec)
    (hfind : db.users.find? (fun x => x.id == user_id) = some u)
    (hprot : u.email ∉ protectedEmails) :
    ∃ db' u', update_user db user_id d = .ok (db', u') ∧
      u'.id = u.id ∧
      u'.email = u.email ∧
      u'.hashed_password = u.hashed_password ∧
      u'.can_manage_customers =
        d.can_manage_customers.getD u.can_manage_customers ∧
      u'.can_view_financials =
        d.can_view_financials.getD u.can_view_financials ∧
      u'.can_manage_partnership_codes =
        d.can_manage_partnership_codes.getD u.can_manage_partnership_codes ∧
      u'.can_view_partnership_stats =
        d.can_view_partnership_stats.getD u.can_view_partnership_stats ∧
      u'.can_manage_access =
        d.can_manage_access.getD u.can_manage_access ∧
      u'.is_active = d.is_active.getD u.is_active ∧
      db'.users = updateFirst (fun x => x.id == user_id)
        (fun x => applyUserUpdate x d) db.users ∧
      db'.customers = db.customers ∧ db'.codes = db.codes ∧
      db'.transactions = db.transactions := by
  refine ⟨{ db with users := (updateFirst (fun x => x.id == user_id)
              (fun x => applyUserUpdate x d) db.users) },
          applyUserUpdate u d, ?_, ?_⟩
  · unfold update_user
    rw [hfind]
    simp [hprot]
  · obtain ⟨h1, h2, h3, h4, h5, h6, h7, h8, h9⟩ := applyUserUpdate_spec u d
    exact ⟨h1, h2, h3, h4, h5, h6, h7, h8, h9, rfl, rfl, rfl, rfl⟩

/-- Witness for C6: applying `sampleUpdate` to the regular user of
`userDB`: explicitly-provided flags (including `false`) land, omitted
flags survive. -/
theorem c6_partial_user_update_witness :
    userDB.users.find? (fun x => x.id == 2) =
      some (userDB.users.get ⟨1, by decide⟩) ∧
    (userDB.users.get ⟨1, by decide⟩).email ∉ protectedEmails ∧
    (∃ db' u', update_user userDB 2 sampleUpdate = .ok (db', u') ∧
      u'.id = (userDB.users.get ⟨1, by decide⟩).id ∧
      u'.email = (userDB.users.get ⟨1, by decide⟩).email ∧
      u'.hashed_password = (userDB.users.get ⟨1, by decide⟩).hashed_password ∧
      u'.can_manage_customers = sampleUpdate.can_manage_customers.getD
        (userDB.users.get ⟨1, by decide⟩).can_manage_customers ∧
      u'.can_view_financials = sampleUpdate.can_view_financials.getD
        (userDB.users.get ⟨1, by decide⟩).can_view_financials ∧
      u'.can_manage_partnership_codes =
        sampleUpdate.can_manage_partnership_codes.getD
          (userDB.users.get ⟨1, by decide⟩).can_manage_partnership_codes ∧
      u'.can_view_partnership_stats =
        sampleUpdate.can_view_partnership_stats.getD
          (userDB.users.get ⟨1, by decide⟩).can_view_partnership_stats ∧
      u'.can_manage_access = sampleUpdate.can_manage_access.getD
        (userDB.users.get ⟨1, by decide⟩).can_manage_access ∧
      u'.is_active = sampleUpdate.is_active.getD
        (userDB.users.get ⟨1, by decide⟩).is_active ∧
      db'.users = updateFirst (fun x => x.id == 2)
        (fun x => applyUserUpdate x sampleUpdate) userDB.users ∧
      db'.customers = userDB.customers ∧ db'.codes = userDB.codes ∧
      db'.transactions = userDB.transactions) := by
  refine ⟨by decide, by decide, ?_⟩
  obtain ⟨db', u', h⟩ :=
    c6_partial_user_update userDB 2 sampleUpdate
      (userDB.users.get ⟨1, by decide⟩) (by decide) (by decide)
  exact ⟨db', u', h⟩

/-!
## C4 - partnership statistics
-/

/-- Filtering an ordered insert by an exact total: every element the
insert skips over has a strictly larger total, so an entry with total `v`
is inserted in front of all retained entries with total `v`. -/
theorem filter_orderedInsert_total (v : Int) (x : PartnershipStats)
    (l : List PartnershipStats) :
    (List.orderedInsert statGe x l).filter (fun s => s.total_amount == v) =
      (if x.total_amount == v
       then x :: l.filter (fun s => s.total_amount == v)
       else l.filter (fun s => s.total_amount == v)) := by
  induction l with
  | nil =>
    by_cases hx : x.total_amount == v <;>
      simp [List.orderedInsert, List.filter, hx]
  | cons b l ih =>
    rw [List.orderedInsert]
    by_cases hr : statGe x b
    · rw [if_pos hr]
      by_cases hx : x.total_amount == v <;>
        simp [List.filter_cons, hx]
    · rw [if_neg hr]
      simp only [statGe, not_le] at hr
      by_cases hx : x.total_amount = v
      · have hb : (b.total_amount == v) = false := by
          simp only [beq_eq_false_iff_ne, ne_eq]
          omega
        simp [List.filter_cons, hx, hb, ih]
      · have hx' : (x.total_amount == v) = false := by
          simpa using hx
        by_cases hb : b.total_amount == v <;>
          simp [List.filter_cons, hx', hb, ih]

/-- Insertion sort with the descending comparator preserves, for each
total value, the subsequence of entries carrying that total: the stable
part of the sort. -/
theorem filter_insertionSort_total (v : Int) (l : List PartnershipStats) :
    (List.insertionSort statGe l).filter (fun s => s.total_amount == v) =
      l.filter (fun s => s.total_amount == v) := by
  induction l with
  | nil => rfl
  | cons a l ih =>
    rw [List.insertionSort, filter_orderedInsert_total]
    by_cases ha : a.total_amount == v <;>
      simp [List.filter_cons, ha, ih]

/-- C4: the statistics are computed for every PartnershipCode, active or
not, and (a) do not depend on the FinancialTransaction table at all; (b)
come out sorted by `total_amount` descending; (c) keep entries with equal
totals in the original code enumeration order (stability, phrased as
filter-preservation per total); (d) each code's entry counts exactly the
non-deleted Customers whose `partnership_code` equals the code's string
and sums their decoded price lists. -/
theorem c4_partnership_stats (db : DB) :
    (∀ ts, get_partnership_stats { db with transactions := ts } =
      get_partnership_stats db) ∧
    List.Sorted statGe (get_partnership_stats db) ∧
    (∀ v : Int,
      (get_partnership_stats db).filter (fun s => s.total_amount == v) =
        (db.codes.map (statFor db)).filter (fun s => s.total_amount == v)) ∧
    (∀ code ∈ db.codes, statFor db code =
      { code := code.code
        customer_count := (db.customers.filter (fun c =>
          c.partnership_code == some code.code && !c.is_deleted)).length
        total_amount := ((db.customers.filter (fun c =>
          c.partnership_code == some code.code && !c.is_deleted)).map
            (fun c => c.prices.sum)).sum }) := by
  refine ⟨fun ts => rfl, List.sorted_insertionSort statGe _,
          fun v => filter_insertionSort_total v _, fun code _ => rfl⟩

/-- A store realising the spec's partnership scenario: code "PARTNER10"
(active) and a deactivated code "OLD"; customer A (prices `[100]`),
customer B (prices `[0]`), both carrying "PARTNER10" and not deleted. -/
def statsDB : DB :=
  { users := []
    customers :=
      [{ id := 1
         full_name := "A"
         phone := "1"
         email := "a@example.com"
         class_level := "12"
         camps := ["Math"]
         prices := [100]
         partnership_code := some "PARTNER10"
         previous_yks_rank := none
         city := "Izmir"
         is_paid := true
         is_deleted := false
         deleted_at := none
         created_at := ⟨2024, 5, 1, 9, 0, 0, 0⟩ },
       { id := 2
         full_name := "B"
         phone := "2"
         email := "b@example.com"
         class_level := "11"
         camps := ["Sci"]
         prices := [0]
         partnership_code := some "PARTNER10"
         previous_yks_rank := none
         city := "Ankara"
         is_paid := false
         is_deleted := false
         deleted_at := none
         created_at := ⟨2024, 5, 1, 9, 5, 0, 0⟩ }]
    codes :=
      [{ id := 1
         code := "PARTNER10"
         is_active := true
         created_at := ⟨2024, 4, 1, 9, 0, 0, 0⟩ },
       { id := 2
         code := "OLD"
         is_active := false
         created_at := ⟨2024, 3, 1, 9, 0, 0, 0⟩ }]
    transactions := [] }

/-- Witness for C4: on `statsDB` the stats ignore an arbitrary transaction
table, and the "PARTNER10" entry counts 2 customers for a total of 100. -/
theorem c4_partnership_stats_witness :
    get_partnership_stats
        { statsDB with transactions := sampleDB.transactions } =
      get_partnership_stats statsDB ∧
    (statsDB.codes.get ⟨0, by decide⟩) ∈ statsDB.codes ∧
    statFor statsDB (statsDB.codes.get ⟨0, by decide⟩) =
      { code := "PARTNER10", customer_count := 2, total_amount := 100 } := by
  refine ⟨(c4_partnership_stats statsDB).1 sampleDB.transactions,
          by decide, ?_⟩
  rw [(c4_partnership_stats statsDB).2.2.2
    (statsDB.codes.get ⟨0, by decide⟩) (by decide)]
  decide

/-!
## C8 - financial detail list
-/

/-- The detail loop as a `filterMap`: one entry per transaction whose
owning Customer exists and is live, none otherwise. -/
theorem detailsOf_eq_filterMap (db : DB) (ts : List TransactionRec) :
    detailsOf db ts = ts.filterMap (fun t =>
      match db.customers.find? (fun c => c.id == t.customer_id) with
      | some c =>
        if c.is_deleted then none
        else some { customer_id := c.id
                    customer_name := c.full_name
                    amount := t.amount
                    transaction_date := t.transaction_date }
      | none => none) := by
  induction ts with
  | nil => rfl
  | cons t ts ih =>
    rw [detailsOf, List.filterMap_cons]
    rcases hf : db.customers.find? (fun c => c.id == t.customer_id) with _ | c
    · simp only [hf]
      exact ih
    · simp only [hf]
      cases hdel : c.is_deleted
      · simp only [Bool.false_eq_true, if_false]
        rw [ih]
      · simp only [if_true]
        exact ih

/-- The detail loop's length equals the number of live transactions with a
live owner. -/
theorem detailsOf_length (db : DB) (ts : List TransactionRec) :
    (detailsOf db ts).length = (ts.filter (fun t =>
      match db.customers.find? (fun c => c.id == t.customer_id) with
      | some c => !c.is_deleted
      | none => false)).length := by
  induction ts with
  | nil => rfl
  | cons t ts ih =>
    rw [detailsOf, List.filter_cons]
    rcases hf : db.customers.find? (fun c => c.id == t.customer_id) with _ | c
    · simp only [hf, Bool.false_eq_true, if_false]
      exact ih
    · simp only [hf]
      cases hdel : c.is_deleted
      · simp only [Bool.false_eq_true, if_false, Bool.not_false, if_true,
          List.length_cons]
        rw [ih]
      · simp only [if_true, Bool.not_true, Bool.false_eq_true, if_false]
        exact ih

/-- C8: the financial detail list contains exactly one entry — customer
id, customer name, amount, timestamp — for each non-deleted transaction
whose owning Customer exists and is non-deleted (phrased as a `filterMap`
over the live transactions, plus the induced count); non-deleted
transactions whose owner is soft-deleted or absent contribute nothing. -/
theorem c8_financial_details (db : DB) (now : PyDateTime) :
    (get_financials db now).details =
      (liveTransactions db).filterMap (fun t =>
        match db.customers.find? (fun c => c.id == t.customer_id) with
        | some c =>
          if c.is_deleted then none
          else some { customer_id := c.id
                      customer_name := c.full_name
                      amount := t.amount
                      transaction_date := t.transaction_date }
        | none => none) ∧
    (get_financials db now).details.length =
      ((liveTransactions db).filter (fun t =>
        match db.customers.find? (fun c => c.id == t.customer_id) with
        | some c => !c.is_deleted
        | none => false)).length :=
  ⟨detailsOf_eq_filterMap db (liveTransactions db),
   detailsOf_length db (liveTransactions db)⟩

/-!
## C2 - financial window sums
-/

/-- A window sum of non-negative amounts is non-negative. -/
theorem windowSum_nonneg (ts : List TransactionRec) (s : PyDateTime)
    (h : ∀ t ∈ ts, 0 ≤ t.amount) : 0 ≤ windowSum ts s := by
  unfold windowSum
  apply List.sum_nonneg
  intro a ha
  simp only [List.mem_map] at ha
  obtain ⟨t, ht, rfl⟩ := ha
  exact h t (List.mem_of_mem_filter ht)

/-- An earlier window start only widens the window: with non-negative
amounts the sum cannot shrink. -/
theorem windowSum_mono (ts : List TransactionRec) (s1 s2 : PyDateTime)
    (hkey : s2.key ≤ s1.key) (h : ∀ t ∈ ts, 0 ≤ t.amount) :
    windowSum ts s1 ≤ windowSum ts s2 := by
  induction ts with
  | nil => simp [windowSum]
  | cons t ts ih =>
    have iht := ih (fun x hx => h x (List.mem_cons_of_mem _ hx))
    have ht0 := h t (List.mem_cons_self _ _)
    unfold windowSum at iht ⊢
    by_cases h1 : s1.leb t.transaction_date
    · have h2 : s2.leb t.transaction_date = true := by
        simp only [PyDateTime.leb, decide_eq_true_eq] at h1 ⊢
        omega
      simp only [List.filter_cons, h1, h2, if_true, List.map_cons,
        List.sum_cons]
      omega
    · by_cases h2 : s2.leb t.transaction_date
      · simp only [List.filter_cons, h1, h2, Bool.false_eq_true, if_false,
          if_true, List.map_cons, List.sum_cons]
        omega
      · simp only [List.filter_cons, h1, h2, Bool.false_eq_true, if_false]
        exact iht

/-- Every window sum is bounded by the all-time total (with non-negative
amounts). -/
theorem windowSum_le_total (ts : List TransactionRec) (s : PyDateTime)
    (h : ∀ t ∈ ts, 0 ≤ t.amount) :
    windowSum ts s ≤ (ts.map (fun t => t.amount)).sum := by
  induction ts with
  | nil => simp [windowSum]
  | cons t ts ih =>
    have iht := ih (fun x hx => h x (List.mem_cons_of_mem _ hx))
    have ht0 := h t (List.mem_cons_self _ _)
    unfold windowSum at iht ⊢
    by_cases h1 : s.leb t.transaction_date
    · simp only [List.filter_cons, h1, if_true, List.map_cons, List.sum_cons]
      omega
    · simp only [List.filter_cons, h1, Bool.false_eq_true, if_false,
        List.map_cons, List.sum_cons]
      omega

/-- Midnight of the current day is no later than `now`. -/
theorem todayStart_key_le (now : PyDateTime) :
    (todayStart now).key ≤ now.key := by
  unfold todayStart PyDateTime.key
  simp only
  omega

/-- The most recent Monday's midnight is no later than today's midnight
(for a valid `now`). -/
theorem weekStart_key_le (now : PyDateTime) (hv : now.valid) :
    (weekStart now).key ≤ (todayStart now).key := by
  obtain ⟨h1, _, h3, h4, h5, h6, _⟩ := hv
  have hd31 : now.day ≤ 31 := le_trans h6 (daysInMonth_le_31 _ _)
  have hsub := dateKey_subDays_le now.weekday (now.year, now.month, now.day)
    (by simpa using h4) (by simpa using hd31)
  have hge : 415 ≤ dateKey (now.year, now.month, now.day) := by
    simp only [dateKey]
    omega
  unfold weekStart todayStart PyDateTime.key
  simp only
  have hp : ((subDays (now.year, now.month, now.day) now.weekday).1,
             (subDays (now.year, now.month, now.day) now.weekday).2.1,
             (subDays (now.year, now.month, now.day) now.weekday).2.2) =
      subDays (now.year, now.month, now.day) now.weekday := rfl
  rw [hp]
  omega

/-- Midnight of the first of the month is no later than today's midnight
(for a valid `now`). -/
theorem monthStart_key_le (now : PyDateTime) (hv : now.valid) :
    (monthStart now).key ≤ (todayStart now).key := by
  obtain ⟨_, _, _, _, h5, _⟩ := hv
  unfold monthStart todayStart PyDateTime.key dateKey
  simp only
  omega

/-- Midnight of January 1 is no later than the month start (for a valid
`now`). -/
theorem yearStart_key_le (now : PyDateTime) (hv : now.valid) :
    (yearStart now).key ≤ (monthStart now).key := by
  obtain ⟨_, _, h3, _⟩ := hv
  unfold yearStart monthStart PyDateTime.key dateKey
  simp only
  omega

/-- C2 (amended): for a valid `now` and non-negative amounts the window
sums satisfy `yearly ≥ monthly ≥ daily ≥ 0`, `weekly ≥ daily`, and the
all-time total dominates both `yearly` and `weekly`.  (The original
claim's `monthly ≥ weekly` and `yearly ≥ weekly` fail whenever the week
containing `now` straddles a month or year boundary; see the
counterexample.) -/
theorem c2_financial_window_sums (db : DB) (now : PyDateTime)
    (hnow : now.valid) (hamt : ∀ t ∈ db.transactions, 0 ≤ t.amount) :
    0 ≤ (get_financials db now).period.daily ∧
    (get_financials db now).period.daily ≤
      (get_financials db now).period.weekly ∧
    (get_financials db now).period.daily ≤
      (get_financials db now).period.monthly ∧
    (get_financials db now).period.monthly ≤
      (get_financials db now).period.yearly ∧
    (get_financials db now).period.yearly ≤ (get_financials db now).total ∧
    (get_financials db now).period.weekly ≤ (get_financials db now).total := by
  have hlive : ∀ t ∈ liveTransactions db, 0 ≤ t.amount :=
    fun t ht => hamt t (List.mem_of_mem_filter ht)
  have hym : (yearStart now).key ≤ (monthStart now).key :=
    yearStart_key_le now hnow
  have hmt : (monthStart now).key ≤ (todayStart now).key :=
    monthStart_key_le now hnow
  have hwt : (weekStart now).key ≤ (todayStart now).key :=
    weekStart_key_le now hnow
  refine ⟨windowSum_nonneg _ _ hlive,
          windowSum_mono _ _ _ hwt hlive,
          windowSum_mono _ _ _ hmt hlive,
          windowSum_mono _ _ _ hym hlive,
          windowSum_le_total _ _ hlive,
          windowSum_le_total _ _ hlive⟩

/-- Witness for C2 (amended) at `sampleDB` and `sampleNow`. -/
theorem c2_financial_window_sums_witness :
    sampleNow.valid ∧
    (∀ t ∈ sampleDB.transactions, 0 ≤ t.amount) ∧
    (0 ≤ (get_financials sampleDB sampleNow).period.daily ∧
     (get_financials sampleDB sampleNow).period.daily ≤
       (get_financials sampleDB sampleNow).period.weekly ∧
     (get_financials sampleDB sampleNow).period.daily ≤
       (get_financials sampleDB sampleNow).period.monthly ∧
     (get_financials sampleDB sampleNow).period.monthly ≤
       (get_financials sampleDB sampleNow).period.yearly ∧
     (get_financials sampleDB sampleNow).period.yearly ≤
       (get_financials sampleDB sampleNow).total ∧
     (get_financials sampleDB sampleNow).period.weekly ≤
       (get_financials sampleDB sampleNow).total) :=
  ⟨by decide, by decide,
   c2_financial_window_sums sampleDB sampleNow (by decide) (by decide)⟩

/-- 2023-03-01 12:00 UTC: a Wednesday, so the week of `now` started on
Monday 2023-02-27, two days before the month did. -/
def cexNow : PyDateTime := ⟨2023, 3, 1, 12, 0, 0, 0⟩

/-- One live transaction of amount 100 dated 2023-02-28: inside the
current week, outside the current month. -/
def cexDB : DB :=
  { users := []
    customers := []
    codes := []
    transactions := [{ customer_id := 1
                       amount := 100
                       transaction_date := ⟨2023, 2, 28, 0, 0, 0, 0⟩
                       is_deleted := false }] }

/-- Counterexample to C2 as stated: at `cexNow` the transaction store
`cexDB` (one non-deleted transaction, non-negative amount) yields
`weekly_total = 100 > 0 = monthly_total`, so the claimed chain
`yearly ≥ monthly ≥ weekly ≥ daily ≥ 0` is false. -/
theorem c2_counterexample :
    cexDB.transactions = [{ customer_id := 1
                            amount := 100
                            transaction_date := ⟨2023, 2, 28, 0, 0, 0, 0⟩
                            is_deleted := false }] ∧
    cexNow.valid ∧
    ¬((get_financials cexDB cexNow).period.monthly ≥
        (get_financials cexDB cexNow).period.weekly ∧
      (get_financials cexDB cexNow).period.yearly ≥
        (get_financials cexDB cexNow).period.monthly ∧
      (get_financials cexDB cexNow).period.weekly ≥
        (get_financials cexDB cexNow).period.daily ∧
      (get_financials cexDB cexNow).period.daily ≥ 0 ∧
      (get_financials cexDB cexNow).total ≥
        (get_financials cexDB cexNow).period.yearly) := by
  refine ⟨rfl, by decide, ?_⟩
  intro hcontra
  have h1 := hcontra.1
  have h2 : (get_financials cexDB cexNow).period.monthly = 0 := by decide
  have h3 : (get_financials cexDB cexNow).period.weekly = 100 := by decide
  omega
